import Mathlib

/-!
# Verification of `src/geom/Ellipse.js` (Phaser CE)

Shallow embedding of the `Phaser.Ellipse` value type and its operations.

The exact, division-based operations (`contains`, the `right`/`bottom`
setters, `empty`, `getBounds`) are embedded over `ℚ`, so that concrete
instances evaluate by `decide`.  The operations that inherently use
square roots and trigonometry (`random`, `intersectsLine`) are embedded
over `ℝ`.

JavaScript numbers are IEEE doubles; following the spec's mathematical
reading, we model them as exact rationals/reals.
-/

namespace Phaser

/-- The `Phaser.Ellipse` record: x, y, width, height.
The constructor documents `x`/`y` as the upper-left corner of the framing
rectangle. -/
structure Ellipse where
  x : ℚ
  y : ℚ
  width : ℚ
  height : ℚ
  deriving DecidableEq, Repr

/-- The `Phaser.Rectangle` record (only the four fields `getBounds` writes). -/
structure Rectangle where
  x : ℚ
  y : ℚ
  width : ℚ
  height : ℚ
  deriving DecidableEq, Repr

namespace Ellipse

/-- Source `Phaser.Ellipse#setTo`: overwrite all four fields. -/
def setTo (_e : Ellipse) (x y width height : ℚ) : Ellipse :=
  ⟨x, y, width, height⟩

/-- Source `Phaser.Ellipse#getBounds`:
`new Phaser.Rectangle(this.x - this.width, this.y - this.height, this.width, this.height)`. -/
def getBounds (e : Ellipse) : Rectangle :=
  ⟨e.x - e.width, e.y - e.height, e.width, e.height⟩

/-- Source `Phaser.Ellipse.contains(a, x, y)`:
false when `width <= 0 || height <= 0`; otherwise normalizes the point by
`normx = ((x - a.x) / a.width) - 0.5`, `normy = ((y - a.y) / a.height) - 0.5`
and returns `normx*normx + normy*normy < 0.25`. -/
def contains (a : Ellipse) (x y : ℚ) : Bool :=
  if a.width ≤ 0 ∨ a.height ≤ 0 then
    false
  else
    let normx := ((x - a.x) / a.width) - 1/2
    let normy := ((y - a.y) / a.height) - 1/2
    decide (normx * normx + normy * normy < 1/4)

/-- Getter of the virtual `right` property: `this.x + this.width`. -/
def right (e : Ellipse) : ℚ := e.x + e.width

/-- Setter of the virtual `right` property:
`if (value < this.x) { this.width = 0; } else { this.width = value - this.x; }`. -/
def setRight (e : Ellipse) (value : ℚ) : Ellipse :=
  if value < e.x then
    { e with width := 0 }
  else
    { e with width := value - e.x }

/-- Getter of the virtual `bottom` property: `this.y + this.height`. -/
def bottom (e : Ellipse) : ℚ := e.y + e.height

/-- Setter of the virtual `bottom` property:
`if (value < this.y) { this.height = 0; } else { this.height = value - this.y; }`. -/
def setBottom (e : Ellipse) (value : ℚ) : Ellipse :=
  if value < e.y then
    { e with height := 0 }
  else
    { e with height := value - e.y }

/-- Getter of the virtual `empty` property: `this.width === 0 || this.height === 0`. -/
def empty (e : Ellipse) : Bool :=
  e.width == 0 || e.height == 0

end Ellipse

/-- A JavaScript value, as far as the `empty` setter can observe it: the
setter tests `value === true` by strict equality, so any non-`true` value
(false, a number, `undefined`, `null`) falls through. -/
inductive JsVal where
  | bool : Bool → JsVal
  | num : ℚ → JsVal
  | undef : JsVal
  | null : JsVal
  deriving DecidableEq, Repr

namespace Ellipse

/-- Setter of the virtual `empty` property:
`if (value === true) { this.setTo(0, 0, 0, 0); }` — any other value is a no-op. -/
def setEmpty (e : Ellipse) (value : JsVal) : Ellipse :=
  if value = JsVal.bool true then
    e.setTo 0 0 0 0
  else
    e

end Ellipse

/-! ## Real-valued embedding

`random` and `intersectsLine` use `Math.sqrt`, `Math.cos`, `Math.sin` and
`Math.PI`, so they are embedded over `ℝ`. -/

/-- The `Phaser.Ellipse` record over `ℝ`, for the operations that use
square roots and trigonometry. -/
structure EllipseR where
  x : ℝ
  y : ℝ
  width : ℝ
  height : ℝ

/-- The `Phaser.Line` record, as far as `intersectsLine` reads it: the two
endpoints `start` and `end` (`end` is renamed `endP` because it is a Lean
keyword). -/
structure LineR where
  start : ℝ × ℝ
  endP : ℝ × ℝ

namespace EllipseR

/-- Source `Phaser.Ellipse.contains` over `ℝ`, as a proposition: false when
`width <= 0 || height <= 0`, otherwise `normx*normx + normy*normy < 0.25`
with `normx = ((x - a.x) / a.width) - 0.5`, `normy = ((y - a.y) / a.height) - 0.5`. -/
def contains (a : EllipseR) (x y : ℝ) : Prop :=
  ¬ (a.width ≤ 0 ∨ a.height ≤ 0) ∧
    (((x - a.x) / a.width - 1/2) * ((x - a.x) / a.width - 1/2) +
     ((y - a.y) / a.height - 1/2) * ((y - a.y) / a.height - 1/2) < 1/4)

/-- Source `Phaser.Ellipse#random`, with the two `Math.random()` draws made explicit
as parameters `u1` and `u2` (each drawn uniformly from `[0, 1)`):
`p = u1 * π * 2`, `r = u2`, unit-disk point `(sqrt r * cos p, sqrt r * sin p)`,
then `out.x = this.x + out.x * this.width / 2`, `out.y = this.y + out.y * this.height / 2`. -/
noncomputable def random (e : EllipseR) (u1 u2 : ℝ) : ℝ × ℝ :=
  let p := u1 * Real.pi * 2
  let r := u2
  let ox := Real.sqrt r * Real.cos p
  let oy := Real.sqrt r * Real.sin p
  (e.x + ox * e.width / 2, e.y + oy * e.height / 2)

/-- Slope `m` in `Phaser.Ellipse.intersectsLine`:
`(l.end.y - l.start.y) / (l.end.x - l.start.x)`. -/
noncomputable def slopeM (l : LineR) : ℝ :=
  (l.endP.2 - l.start.2) / (l.endP.1 - l.start.1)

/-- Intercept `n` in `Phaser.Ellipse.intersectsLine`: `l.end.y - m * l.end.x`. -/
noncomputable def interceptN (l : LineR) : ℝ :=
  l.endP.2 - slopeM l * l.endP.1

/-- Discriminant under the square root in `Phaser.Ellipse.intersectsLine`:
`(a*a)*(m*m) + (b*b) - (del*del) - (k*k) + (2*del*k)`. -/
noncomputable def lineDisc (e : EllipseR) (l : LineR) : ℝ :=
  let k := e.y
  let m := slopeM l
  let n := interceptN l
  let a := e.width / 2
  let b := e.height / 2
  let del := n + m * e.x
  a * a * (m * m) + b * b - del * del - k * k + 2 * del * k

/-- The two candidate points `p0 = (x0, y0)` and `p1 = (x1, y1)` computed by
`Phaser.Ellipse.intersectsLine` before the segment-membership filtering:
`x0`/`x1` take `+`/`-` the square root, and `y_i = m * x_i + n`. -/
noncomputable def lineCandidates (e : EllipseR) (l : LineR) : (ℝ × ℝ) × (ℝ × ℝ) :=
  let h := e.x
  let k := e.y
  let m := slopeM l
  let n := interceptN l
  let a := e.width / 2
  let b := e.height / 2
  let x0 := (h * (b * b) - m * (a * a) * (n - k) + a * b * Real.sqrt (lineDisc e l)) /
    (a * a * (m * m) + b * b)
  let x1 := (h * (b * b) - m * (a * a) * (n - k) - a * b * Real.sqrt (lineDisc e l)) /
    (a * a * (m * m) + b * b)
  ((x0, m * x0 + n), (x1, m * x1 + n))

/-- Source `Phaser.Ellipse.intersectsLine` with `returnPoints` truthy.  The line's
`pointOnSegment(x, y, 0.01)` method is external to this file's source, so it
is passed in as the predicate `onSeg`; the branching on
`p0Exists`/`p1Exists` is the source's `if/else if` chain. -/
noncomputable def intersectsLinePoints (e : EllipseR) (l : LineR)
    (onSeg : ℝ → ℝ → ℝ → Bool) : List (ℝ × ℝ) :=
  let p0 := (lineCandidates e l).1
  let p1 := (lineCandidates e l).2
  let p0Exists := onSeg p0.1 p0.2 0.01
  let p1Exists := onSeg p1.1 p1.2 0.01
  if p0Exists && p1Exists then [p0, p1]
  else if p0Exists then [p0]
  else if p1Exists then [p1]
  else []

/-- Source `Phaser.Ellipse.intersectsLine` with `returnPoints` falsy: the same
`if/else if` chain returning `true`/`true`/`true`/`false`. -/
noncomputable def intersectsLineBool (e : EllipseR) (l : LineR)
    (onSeg : ℝ → ℝ → ℝ → Bool) : Bool :=
  let p0 := (lineCandidates e l).1
  let p1 := (lineCandidates e l).2
  let p0Exists := onSeg p0.1 p0.2 0.01
  let p1Exists := onSeg p1.1 p1.2 0.01
  if p0Exists && p1Exists then true
  else if p0Exists then true
  else if p1Exists then true
  else false

end EllipseR

/-- Modelled from the spec: `Phaser.Line#pointOnSegment(x, y, tolerance)` is
not part of this source file; the spec describes it as the segment-membership
test confirming the point lies on the finite segment within the distance
tolerance (a perpendicular/parametric check).  We model it parametrically:
some parameter `u ∈ [0, 1]` places the segment point within `tol` of the
query point in both coordinates. -/
def pointOnSegmentSpec (l : LineR) (px py tol : ℝ) : Prop :=
  ∃ u : ℝ, 0 ≤ u ∧ u ≤ 1 ∧
    |px - (l.start.1 + u * (l.endP.1 - l.start.1))| ≤ tol ∧
    |py - (l.start.2 + u * (l.endP.2 - l.start.2))| ≤ tol

/-- Modelled from the spec: the Boolean form of `pointOnSegmentSpec`, as
`Phaser.Line#pointOnSegment` returns a JavaScript boolean. -/
noncomputable def pointOnSegmentB (l : LineR) (px py tol : ℝ) : Bool :=
  @decide (pointOnSegmentSpec l px py tol) (Classical.propDecidable _)

/-- The spec's closed-form root
`x = [h*b^2 - m*a^2*(n-k) ± a*b*sqrt(a^2*m^2 + b^2 - del^2 - k^2 + 2*del*k)] / (a^2*m^2 + b^2)`
with `del = n + m*h`, stated from the spec's words (`sgn` selects the branch),
to be compared with the roots `lineCandidates` computes from the source. -/
noncomputable def specRootX (e : EllipseR) (l : LineR) (sgn : ℝ) : ℝ :=
  let h := e.x
  let k := e.y
  let m := EllipseR.slopeM l
  let n := EllipseR.interceptN l
  let a := e.width / 2
  let b := e.height / 2
  let del := n + m * h
  (h * b^2 - m * a^2 * (n - k) +
      sgn * (a * b * Real.sqrt (a^2 * m^2 + b^2 - del^2 - k^2 + 2 * del * k))) /
    (a^2 * m^2 + b^2)

/-- The ellipse `(x=0, y=0, width=10, height=10)` of the spec's concrete
scenarios, over `ℝ`. -/
def e10 : EllipseR := ⟨0, 0, 10, 10⟩

/-- The horizontal segment from `(-10, 0)` to `(10, 0)` of the spec's
concrete scenario. -/
def seg10 : LineR := ⟨(-10, 0), (10, 0)⟩

end Phaser

/-! ## Theorems over the rational embedding -/

open Phaser

/-- The minimal framing rectangle the spec contrasts `getBounds` with:
`(x - width/2, y - height/2, width, height)`.  Stated from the spec's words,
to be compared with the source's `getBounds`. -/
def minimalBounds (e : Ellipse) : Rectangle :=
  ⟨e.x - e.width / 2, e.y - e.height / 2, e.width, e.height⟩

/-- C3: `contains` returns false when `width <= 0` or `height <= 0`, and
otherwise returns true iff `normx*normx + normy*normy < 0.25` (strictly),
with `normx = (x - a.x)/a.width - 0.5` and `normy = (y - a.y)/a.height - 0.5`. -/
theorem contains_iff_normSq_lt (a : Ellipse) (x y : ℚ) :
    Ellipse.contains a x y = true ↔
      (0 < a.width ∧ 0 < a.height ∧
        ((x - a.x) / a.width - 1/2) * ((x - a.x) / a.width - 1/2) +
        ((y - a.y) / a.height - 1/2) * ((y - a.y) / a.height - 1/2) < 1/4) := by
  unfold Ellipse.contains
  split
  · rename_i h
    simp only [Bool.false_eq_true, false_iff]
    rintro ⟨hw, hh, -⟩
    rcases h with h | h
    · exact absurd h (not_le.2 hw)
    · exact absurd h (not_le.2 hh)
  · rename_i h
    push_neg at h
    simp only [decide_eq_true_eq]
    exact ⟨fun hi => ⟨h.1, h.2, hi⟩, fun hi => hi.2.2⟩

/-- C1 (counterexample): the ellipse `(0, 0, 10, 10)` has positive width and
height, yet `contains(0, 0)` — the ellipse's own `x` and `y` — is false,
because `contains` places the ellipse's center at
`(x + width/2, y + height/2)`, not at `(x, y)`. -/
theorem contains_own_xy_false :
    ((0:ℚ) < 10 ∧ (0:ℚ) < 10) ∧ Ellipse.contains ⟨0, 0, 10, 10⟩ 0 0 = false := by
  norm_num [Ellipse.contains]

/-- C1 (amended): for every ellipse with positive width and height, the point
`(x + width/2, y + height/2)` — the center under the framing-rectangle
convention `contains` actually uses — is contained. -/
theorem contains_center_true (e : Ellipse) (hw : 0 < e.width) (hh : 0 < e.height) :
    Ellipse.contains e (e.x + e.width / 2) (e.y + e.height / 2) = true := by
  unfold Ellipse.contains
  rw [if_neg (by push_neg; exact ⟨hw, hh⟩)]
  have hw0 : e.width ≠ 0 := ne_of_gt hw
  have hh0 : e.height ≠ 0 := ne_of_gt hh
  have hx : (e.x + e.width / 2 - e.x) / e.width - 1/2 = 0 := by
    field_simp
    ring
  have hy : (e.y + e.height / 2 - e.y) / e.height - 1/2 = 0 := by
    field_simp
    ring
  simp only [hx, hy, decide_eq_true_eq]
  norm_num

/-- Witness for C1's amended theorem at the spec's concrete ellipse. -/
theorem contains_center_true_witness :
    Ellipse.contains ⟨0, 0, 10, 10⟩ (0 + 10 / 2) (0 + 10 / 2) = true :=
  contains_center_true ⟨0, 0, 10, 10⟩ (by norm_num) (by norm_num)

/-- C6: after `right = v`, `width` is `v - x` and `right` reads back `v` when
`v ≥ x`, otherwise `width` is `0` and `right` reads back `x`; analogously for
`bottom` with `y`/`height`. -/
theorem setRight_setBottom_spec (e : Ellipse) (v : ℚ) :
    (v ≥ e.x → (e.setRight v).width = v - e.x ∧ (e.setRight v).right = v) ∧
    (v < e.x → (e.setRight v).width = 0 ∧ (e.setRight v).right = e.x) ∧
    (v ≥ e.y → (e.setBottom v).height = v - e.y ∧ (e.setBottom v).bottom = v) ∧
    (v < e.y → (e.setBottom v).height = 0 ∧ (e.setBottom v).bottom = e.y) := by
  refine ⟨fun h => ?_, fun h => ?_, fun h => ?_, fun h => ?_⟩
  · simp only [Ellipse.setRight, Ellipse.right, if_neg (not_lt.2 h)]
    exact ⟨trivial, by ring⟩
  · simp only [Ellipse.setRight, Ellipse.right, if_pos h]
    exact ⟨trivial, by ring⟩
  · simp only [Ellipse.setBottom, Ellipse.bottom, if_neg (not_lt.2 h)]
    exact ⟨trivial, by ring⟩
  · simp only [Ellipse.setBottom, Ellipse.bottom, if_pos h]
    exact ⟨trivial, by ring⟩

/-- Witness for C6 at the ellipse `(1, 2, 3, 4)` with `v = 10` and `v = 0`. -/
theorem setRight_setBottom_spec_witness :
    (Ellipse.setRight ⟨1, 2, 3, 4⟩ 10).width = 10 - 1 ∧
    (Ellipse.setRight ⟨1, 2, 3, 4⟩ 10).right = 10 ∧
    (Ellipse.setRight ⟨1, 2, 3, 4⟩ 0).width = 0 ∧
    (Ellipse.setRight ⟨1, 2, 3, 4⟩ 0).right = 1 ∧
    (Ellipse.setBottom ⟨1, 2, 3, 4⟩ 10).height = 10 - 2 ∧
    (Ellipse.setBottom ⟨1, 2, 3, 4⟩ 0).height = 0 := by
  have h10 := setRight_setBottom_spec ⟨1, 2, 3, 4⟩ 10
  have h0 := setRight_setBottom_spec ⟨1, 2, 3, 4⟩ 0
  exact ⟨(h10.1 (by norm_num)).1, (h10.1 (by norm_num)).2,
    (h0.2.1 (by norm_num)).1, (h0.2.1 (by norm_num)).2,
    (h10.2.2.1 (by norm_num)).1, (h0.2.2.2 (by norm_num)).1⟩

/-- C7: `empty` reads true iff `width == 0` or `height == 0` (exact equality,
so a negative width gives false), and assigning `empty = true` zeroes all
four fields. -/
theorem empty_spec :
    (∀ e : Ellipse, e.empty = true ↔ (e.width = 0 ∨ e.height = 0)) ∧
    (∀ e : Ellipse, e.setEmpty (JsVal.bool true) = ⟨0, 0, 0, 0⟩) ∧
    Ellipse.empty ⟨0, 0, -5, 3⟩ = false := by
  refine ⟨fun e => ?_, fun e => rfl, ?_⟩
  · simp [Ellipse.empty]
  · simp [Ellipse.empty]

/-- C9: assigning anything other than the boolean `true` to `empty` (false, a
number, `undefined`, `null`) leaves all four fields unchanged. -/
theorem setEmpty_nonTrue_id (e : Ellipse) (v : JsVal) (h : v ≠ JsVal.bool true) :
    e.setEmpty v = e := by
  simp [Ellipse.setEmpty, h]

/-- Witness for C9: assigning `false` to `empty` of `(1, 2, 3, 4)` is a no-op. -/
theorem setEmpty_nonTrue_id_witness :
    Ellipse.setEmpty ⟨1, 2, 3, 4⟩ (JsVal.bool false) = ⟨1, 2, 3, 4⟩ :=
  setEmpty_nonTrue_id ⟨1, 2, 3, 4⟩ (JsVal.bool false) (by simp)

/-- C8: `getBounds` returns exactly `(x - width, y - height, width, height)`,
which differs from the minimal framing rectangle
`(x - width/2, y - height/2, width, height)` whenever `width ≠ 0`. -/
theorem getBounds_spec (e : Ellipse) :
    e.getBounds = ⟨e.x - e.width, e.y - e.height, e.width, e.height⟩ ∧
    (e.width ≠ 0 → e.getBounds ≠ minimalBounds e) := by
  refine ⟨rfl, fun hw hEq => hw ?_⟩
  have hx : e.x - e.width = e.x - e.width / 2 := congrArg Rectangle.x hEq
  linarith

/-- Witness for C8 at the ellipse `(0, 0, 10, 10)`. -/
theorem getBounds_spec_witness :
    Ellipse.getBounds ⟨0, 0, 10, 10⟩ = ⟨0 - 10, 0 - 10, 10, 10⟩ ∧
    Ellipse.getBounds ⟨0, 0, 10, 10⟩ ≠ minimalBounds ⟨0, 0, 10, 10⟩ :=
  ⟨(getBounds_spec ⟨0, 0, 10, 10⟩).1,
   (getBounds_spec ⟨0, 0, 10, 10⟩).2 (by norm_num)⟩

/-! ## Theorems over the real embedding -/

/-- Supporting fact: the point `random` produces always lies inside the
ellipse whose framing-rectangle corner is `(x - width/2, y - height/2)` —
i.e. the ellipse centered at `(x, y)` — for any draws `u1 ∈ ℝ`, `u2 ∈ [0, 1)`.
`random` uses the center convention while `contains` uses the corner
convention; this pins down which region the sampler actually covers. -/
theorem random_mem_centered (e : EllipseR) (hw : 0 < e.width) (hh : 0 < e.height)
    (u1 u2 : ℝ) (h0 : 0 ≤ u2) (h1 : u2 < 1) :
    EllipseR.contains ⟨e.x - e.width / 2, e.y - e.height / 2, e.width, e.height⟩
      (e.random u1 u2).1 (e.random u1 u2).2 := by
  have hw0 : e.width ≠ 0 := ne_of_gt hw
  have hh0 : e.height ≠ 0 := ne_of_gt hh
  constructor
  · push_neg
    exact ⟨hw, hh⟩
  · have hx : ((e.random u1 u2).1 - (e.x - e.width / 2)) / e.width - 1/2 =
        Real.sqrt u2 * Real.cos (u1 * Real.pi * 2) / 2 := by
      unfold EllipseR.random
      field_simp
      ring
    have hy : ((e.random u1 u2).2 - (e.y - e.height / 2)) / e.height - 1/2 =
        Real.sqrt u2 * Real.sin (u1 * Real.pi * 2) / 2 := by
      unfold EllipseR.random
      field_simp
      ring
    rw [hx, hy]
    have hs : Real.sqrt u2 * Real.sqrt u2 = u2 := Real.mul_self_sqrt h0
    have hcs : Real.cos (u1 * Real.pi * 2) ^ 2 + Real.sin (u1 * Real.pi * 2) ^ 2 = 1 :=
      Real.cos_sq_add_sin_sq _
    have key : Real.sqrt u2 * Real.cos (u1 * Real.pi * 2) / 2 *
          (Real.sqrt u2 * Real.cos (u1 * Real.pi * 2) / 2) +
        Real.sqrt u2 * Real.sin (u1 * Real.pi * 2) / 2 *
          (Real.sqrt u2 * Real.sin (u1 * Real.pi * 2) / 2) = u2 / 4 := by
      calc Real.sqrt u2 * Real.cos (u1 * Real.pi * 2) / 2 *
              (Real.sqrt u2 * Real.cos (u1 * Real.pi * 2) / 2) +
            Real.sqrt u2 * Real.sin (u1 * Real.pi * 2) / 2 *
              (Real.sqrt u2 * Real.sin (u1 * Real.pi * 2) / 2)
          = Real.sqrt u2 * Real.sqrt u2 *
              (Real.cos (u1 * Real.pi * 2) ^ 2 + Real.sin (u1 * Real.pi * 2) ^ 2) / 4 := by
            ring
        _ = u2 / 4 := by rw [hs, hcs]; ring
    rw [key]
    linarith

/-- C2 (the code at the failing input): the ellipse `(0, 0, 10, 10)` is
non-degenerate, the draws `u1 = 0`, `u2 = 0` make `random` return the point
`(0, 0)`, and `contains` rejects that point for the same ellipse: `random`
places its disk around `(x, y)` while `contains` reads `(x, y)` as the
framing-rectangle corner. -/
theorem random_point_not_contained :
    ((0:ℝ) < 10 ∧ (0:ℝ) < 10) ∧
    EllipseR.random e10 0 0 = (0, 0) ∧
    ¬ EllipseR.contains e10 0 0 := by
  refine ⟨⟨by norm_num, by norm_num⟩, ?_, ?_⟩
  · unfold EllipseR.random e10
    norm_num
  · rintro ⟨-, hlt⟩
    unfold e10 at hlt
    norm_num at hlt

/-- C4: for a line whose endpoints have distinct x coordinates, the two
candidate points of `intersectsLine` have x coordinates equal to the spec's
closed-form roots (`+` root first, `-` root second) and y coordinates
`m * x + n`. -/
theorem lineCandidates_match_spec (e : EllipseR) (l : LineR)
    (_hne : l.start.1 ≠ l.endP.1) :
    (EllipseR.lineCandidates e l).1.1 = specRootX e l 1 ∧
    (EllipseR.lineCandidates e l).2.1 = specRootX e l (-1) ∧
    (EllipseR.lineCandidates e l).1.2 =
      EllipseR.slopeM l * (EllipseR.lineCandidates e l).1.1 + EllipseR.interceptN l ∧
    (EllipseR.lineCandidates e l).2.2 =
      EllipseR.slopeM l * (EllipseR.lineCandidates e l).2.1 + EllipseR.interceptN l := by
  have hD : EllipseR.lineDisc e l =
      (e.width / 2) ^ 2 * EllipseR.slopeM l ^ 2 + (e.height / 2) ^ 2 -
        (EllipseR.interceptN l + EllipseR.slopeM l * e.x) ^ 2 - e.y ^ 2 +
        2 * (EllipseR.interceptN l + EllipseR.slopeM l * e.x) * e.y := by
    unfold EllipseR.lineDisc
    ring
  refine ⟨?_, ?_, rfl, rfl⟩ <;>
  · unfold EllipseR.lineCandidates specRootX
    rw [hD]
    ring

/-- Witness for C4 at the scenario ellipse and segment. -/
theorem lineCandidates_match_spec_witness :
    (EllipseR.lineCandidates e10 seg10).1.1 = specRootX e10 seg10 1 ∧
    (EllipseR.lineCandidates e10 seg10).2.1 = specRootX e10 seg10 (-1) ∧
    (EllipseR.lineCandidates e10 seg10).1.2 =
      EllipseR.slopeM seg10 * (EllipseR.lineCandidates e10 seg10).1.1 +
        EllipseR.interceptN seg10 ∧
    (EllipseR.lineCandidates e10 seg10).2.2 =
      EllipseR.slopeM seg10 * (EllipseR.lineCandidates e10 seg10).2.1 +
        EllipseR.interceptN seg10 :=
  lineCandidates_match_spec e10 seg10 (by norm_num [seg10])

/-- On the scenario ellipse `(0, 0, 10, 10)` and segment `(-10,0)–(10,0)`, the
two candidate points evaluate to `(5, 0)` and `(-5, 0)`. -/
theorem lineCandidates_scenario :
    EllipseR.lineCandidates e10 seg10 = ((5, 0), (-5, 0)) := by
  have hD : EllipseR.lineDisc e10 seg10 = 25 := by
    simp only [EllipseR.lineDisc, EllipseR.slopeM, EllipseR.interceptN, e10, seg10]
    norm_num
  have h5 : Real.sqrt (EllipseR.lineDisc e10 seg10) = 5 := by
    rw [hD, show (25:ℝ) = 5 ^ 2 by norm_num, Real.sqrt_sq (by norm_num : (0:ℝ) ≤ 5)]
  simp only [EllipseR.lineCandidates, EllipseR.slopeM, EllipseR.interceptN, e10, seg10]
    at h5 ⊢
  norm_num [Prod.ext_iff, h5]

/-- C5: with `returnPoints`, `intersectsLine` returns the candidates in the
fixed order `[p0, p1]` filtered by the segment-membership test at tolerance
`0.01`; without it, it returns true iff at least one candidate passes.  On
the ellipse `(0, 0, 10, 10)` and the segment `(-10,0)–(10,0)` it returns the
two points `(5, 0)` and `(-5, 0)`, both on the segment. -/
theorem intersectsLine_return_contract :
    (∀ (e : EllipseR) (l : LineR) (s : ℝ → ℝ → ℝ → Bool),
      EllipseR.intersectsLinePoints e l s =
        [(EllipseR.lineCandidates e l).1, (EllipseR.lineCandidates e l).2].filter
          (fun p => s p.1 p.2 0.01) ∧
      (EllipseR.intersectsLineBool e l s = true ↔
        (s (EllipseR.lineCandidates e l).1.1 (EllipseR.lineCandidates e l).1.2 0.01 = true ∨
         s (EllipseR.lineCandidates e l).2.1 (EllipseR.lineCandidates e l).2.2 0.01 = true))) ∧
    EllipseR.intersectsLinePoints e10 seg10 (pointOnSegmentB seg10) = [(5, 0), (-5, 0)] ∧
    pointOnSegmentSpec seg10 5 0 0.01 ∧
    pointOnSegmentSpec seg10 (-5) 0 0.01 := by
  have hOn5 : pointOnSegmentSpec seg10 5 0 0.01 := by
    refine ⟨3/4, by norm_num, by norm_num, ?_, ?_⟩
    · show |(5:ℝ) - (-10 + 3/4 * (10 - (-10)))| ≤ 0.01
      norm_num
    · show |(0:ℝ) - (0 + 3/4 * (0 - 0))| ≤ 0.01
      norm_num
  have hOnm5 : pointOnSegmentSpec seg10 (-5) 0 0.01 := by
    refine ⟨1/4, by norm_num, by norm_num, ?_, ?_⟩
    · show |(-5:ℝ) - (-10 + 1/4 * (10 - (-10)))| ≤ 0.01
      norm_num
    · show |(0:ℝ) - (0 + 1/4 * (0 - 0))| ≤ 0.01
      norm_num
  have hB5 : pointOnSegmentB seg10 5 0 0.01 = true := by
    unfold pointOnSegmentB
    exact @decide_eq_true _ (Classical.propDecidable _) hOn5
  have hBm5 : pointOnSegmentB seg10 (-5) 0 0.01 = true := by
    unfold pointOnSegmentB
    exact @decide_eq_true _ (Classical.propDecidable _) hOnm5
  refine ⟨fun e l s => ⟨?_, ?_⟩, ?_, hOn5, hOnm5⟩
  · unfold EllipseR.intersectsLinePoints
    cases hs0 : s (EllipseR.lineCandidates e l).1.1 (EllipseR.lineCandidates e l).1.2 0.01 <;>
    cases hs1 : s (EllipseR.lineCandidates e l).2.1 (EllipseR.lineCandidates e l).2.2 0.01 <;>
      simp [hs0, hs1, List.filter]
  · unfold EllipseR.intersectsLineBool
    cases hs0 : s (EllipseR.lineCandidates e l).1.1 (EllipseR.lineCandidates e l).1.2 0.01 <;>
    cases hs1 : s (EllipseR.lineCandidates e l).2.1 (EllipseR.lineCandidates e l).2.2 0.01 <;>
      simp [hs0, hs1]
  · unfold EllipseR.intersectsLinePoints
    rw [lineCandidates_scenario]
    simp [hB5, hBm5]

/-- C10: for a non-degenerate ellipse, a non-vertical line, and a nonnegative
discriminant, the `+sqrt` candidate's x coordinate is at least the `-sqrt`
candidate's, so when both candidates are accepted the returned array
`[p0, p1]` is ordered by non-increasing x. -/
theorem lineCandidates_x_ordered (e : EllipseR) (l : LineR)
    (hw : 0 < e.width) (hh : 0 < e.height) (_hne : l.start.1 ≠ l.endP.1)
    (_hD : 0 ≤ EllipseR.lineDisc e l) :
    (EllipseR.lineCandidates e l).2.1 ≤ (EllipseR.lineCandidates e l).1.1 ∧
    (∀ s : ℝ → ℝ → ℝ → Bool,
      s (EllipseR.lineCandidates e l).1.1 (EllipseR.lineCandidates e l).1.2 0.01 = true →
      s (EllipseR.lineCandidates e l).2.1 (EllipseR.lineCandidates e l).2.2 0.01 = true →
      EllipseR.intersectsLinePoints e l s =
        [(EllipseR.lineCandidates e l).1, (EllipseR.lineCandidates e l).2]) := by
  constructor
  · have hb2 : 0 < e.height / 2 * (e.height / 2) := by nlinarith
    have ham : 0 ≤ e.width / 2 * (e.width / 2) *
        (EllipseR.slopeM l * EllipseR.slopeM l) :=
      mul_nonneg (mul_self_nonneg _) (mul_self_nonneg _)
    have hden : 0 < e.width / 2 * (e.width / 2) *
        (EllipseR.slopeM l * EllipseR.slopeM l) + e.height / 2 * (e.height / 2) := by
      linarith
    have hnum : 0 ≤ e.width / 2 * (e.height / 2) * Real.sqrt (EllipseR.lineDisc e l) :=
      mul_nonneg (mul_nonneg (by linarith) (by linarith)) (Real.sqrt_nonneg _)
    simp only [EllipseR.lineCandidates]
    rw [div_le_div_iff₀ hden hden]
    nlinarith [hnum, hden]
  · intro s h0 h1
    unfold EllipseR.intersectsLinePoints
    simp [h0, h1]

/-- Witness for C10 at the scenario ellipse and segment. -/
theorem lineCandidates_x_ordered_witness :
    (EllipseR.lineCandidates e10 seg10).2.1 ≤ (EllipseR.lineCandidates e10 seg10).1.1 :=
  (lineCandidates_x_ordered e10 seg10 (by norm_num [e10]) (by norm_num [e10])
    (by norm_num [seg10])
    (by
      simp only [EllipseR.lineDisc, EllipseR.slopeM, EllipseR.interceptN, e10, seg10]
      norm_num)).1
